import Mathlib

/-!
Shallow embedding of the pqutil value codec (PostgreSQL array / row / hstore
text literals) and proofs about its specification claims.

Byte strings from the Go source are modelled as `List Char`, one `Char` per
byte; all inputs exercised here are ASCII so this is byte-faithful.
-/

set_option maxRecDepth 4000

namespace Pqutil

/-- Byte strings (Go `[]byte` / `string`), one `Char` per byte. -/
abbrev Bytes := List Char

/-- Go `bytes.Replace(s, old, new, -1)`: replace all non-overlapping
occurrences of `old` in `s` by `new`, scanning left to right.  All call
sites in the source use a non-empty `old`; for `old = []` this model
returns `s` unchanged.  The fuel counts consumed bytes (each step consumes
at least one), so `s.length` always suffices; the recursion is structural
on the fuel so that concrete evaluations reduce in the kernel. -/
def goReplaceF : Nat → Bytes → Bytes → Bytes → Bytes
  | 0, s, _, _ => s
  | fuel + 1, s, old, new =>
    match s with
    | [] => []
    | c :: rest =>
      if old ≠ [] ∧ old.isPrefixOf (c :: rest) then
        new ++ goReplaceF fuel ((c :: rest).drop old.length) old new
      else
        c :: goReplaceF fuel rest old new

/-- `bytes.Replace(s, old, new, -1)` with its always-sufficient fuel. -/
def goReplace (s old new : Bytes) : Bytes := goReplaceF s.length s old new

/-- The literal `NULL` token (`nullb` in the source). -/
def nullb : Bytes := ['N', 'U', 'L', 'L']

def backslashChar : Char := '\\'
def quoteChar : Char := '\"'

/-- `escape(s, t)` from the source: `t = 0` passthrough, `t = 1` array-style
(`\` → `\\` then `"` → `\"`), `t = 2` row-style (`\` → `\\` then `"` → `""`). -/
def escape (s : Bytes) (t : Nat) : Bytes :=
  if t = 0 then s
  else
    let s1 := goReplace s [backslashChar] [backslashChar, backslashChar]
    if t = 1 then goReplace s1 [quoteChar] [backslashChar, quoteChar]
    else if t = 2 then goReplace s1 [quoteChar] [quoteChar, quoteChar]
    else s1

/-- Error classes for the `error` values the Go code returns
(`fmt.Errorf` messages collapsed to their class). -/
inductive GoError where
  /-- `split`: "cannot split data. Unknown format" -/
  | unknownFormat
  /-- `split`: "cannot split data. missing '<delim>'" -/
  | missingCloser
  /-- `fitInt` / `strconv.ParseInt`: value does not fit the bit width -/
  | rangeError
  /-- `fitInt`: "invalid bitSize" -/
  | invalidBitSize
  /-- a decode was handed a source of an unsupported dynamic type -/
  | typeMismatch
  /-- `strconv` / `parseTime`: text failed to parse -/
  | parseError
  /-- row scan: part/column count mismatch -/
  | arityError
  /-- `pgRecord.Set`: "No column <name>" -/
  | notFound
  /-- `pgText` (Char): "cannot fit ... into Char(n)" -/
  | lengthError
  /-- `pgEnum`: "Value should be one of ..." -/
  | invalidEnumValue
  /-- `pgRow.Append` / `pgRecord.Append`: container is fixed size -/
  | appendError
  /-- artifact of the fuel-indexed embedding of recursive encodes; no
  theorem relies on it -/
  | fuelOut
deriving DecidableEq, Repr

/-- Outcome of a Go call that can return an error or panic.  `fuelOut` is an
artifact of the fuel-indexed embedding of recursive container scans; no
theorem below relies on it. -/
inductive Outcome where
  | ok
  | error (e : GoError)
  | panicked
  | fuelOut
deriving DecidableEq, Repr

/-- Decimal digit character for `d < 10`. -/
def digitChar (d : Nat) : Char := Char.ofNat (48 + d)

/-- Decimal digits of a natural number, most significant first (model of
Go's `%d` formatting for naturals), fuel-structural: `n + 1` units always
suffice since the argument shrinks by a factor of ten each step. -/
def natDecF : Nat → Nat → Bytes
  | 0, _ => []
  | fuel + 1, n =>
    if n < 10 then [digitChar n]
    else natDecF fuel (n / 10) ++ [digitChar (n % 10)]

/-- Decimal digits with the always-sufficient fuel `n + 1`. -/
def natDec (n : Nat) : Bytes := natDecF (n + 1) n

/-- Go `fmt.Sprintf("%d", n)` for an `int64`. -/
def intDec (n : Int) : Bytes :=
  if n < 0 then '-' :: natDec n.natAbs else natDec n.natAbs

/-- Accumulating decimal parse of a digit run; `none` on a non-digit. -/
def parseDigits (acc : Nat) : Bytes → Option Nat
  | [] => some acc
  | c :: cs =>
    if 48 ≤ c.toNat ∧ c.toNat ≤ 57 then
      parseDigits (acc * 10 + (c.toNat - 48)) cs
    else none

/-- The sign-free part of Go `strconv.ParseInt(s, 10, bitSize)`: a
non-empty decimal digit run and the signed range check
`-2^(bitSize-1) ≤ v ≤ 2^(bitSize-1) - 1` (Go additionally clamps the
returned value on overflow; only the error is observed by the embedded
code). -/
def goParseIntCore (neg : Bool) (digits : Bytes) (bitSize : Nat) :
    Except GoError Int :=
  match digits with
  | [] => .error .parseError
  | c0 :: rest0 =>
    match parseDigits 0 (c0 :: rest0) with
    | none => .error .parseError
    | some m =>
      if -(2 ^ (bitSize - 1) : Int) ≤ (if neg then -(m : Int) else (m : Int)) ∧
          (if neg then -(m : Int) else (m : Int)) ≤ (2 ^ (bitSize - 1) : Int) - 1 then
        .ok (if neg then -(m : Int) else (m : Int))
      else .error .rangeError

/-- Model of Go `strconv.ParseInt(s, 10, bitSize)`: optional sign, then the
digit run and range check of `goParseIntCore`. -/
def goParseInt (s : Bytes) (bitSize : Nat) : Except GoError Int :=
  match s with
  | [] => .error .parseError
  | c :: rest =>
    if c = '-' then goParseIntCore true rest bitSize
    else if c = '+' then goParseIntCore false rest bitSize
    else goParseIntCore false (c :: rest) bitSize

/-- Model of Go `time.Time` restricted to what the codec observes: calendar
fields, nanoseconds and a fixed zone offset in seconds (0 = UTC). -/
structure GoTime where
  year : Nat
  month : Nat
  day : Nat
  hour : Nat
  minute : Nat
  second : Nat
  nsec : Nat
  offset : Int
deriving DecidableEq, Repr

/-- The zero `time.Time`: January 1, year 1, 00:00:00 UTC. -/
def zeroTime : GoTime := ⟨1, 1, 1, 0, 0, 0, 0, 0⟩

/-- Left-pad decimal digits with zeros to width `w` (Go zero-padded
layout fields). -/
def padDec (w n : Nat) : Bytes :=
  let d := natDec n
  List.replicate (w - d.length) '0' ++ d

/-- Fractional-second part of Go's `RFC3339Nano` rendering: empty when
`nsec = 0`, otherwise a dot followed by nine zero-padded digits with
trailing zeros stripped. -/
def fracNano (nsec : Nat) : Bytes :=
  if nsec = 0 then []
  else '.' :: (padDec 9 nsec).reverse.dropWhile (· = '0') |>.reverse

/-- Zone suffix of `Z07:00` style layouts: `Z` for offset 0, else
`±hh:mm`. -/
def zoneSuffix (offset : Int) : Bytes :=
  if offset = 0 then ['Z']
  else
    let sign := if offset < 0 then '-' else '+'
    let abs := offset.natAbs
    sign :: padDec 2 (abs / 3600) ++ ':' :: padDec 2 (abs % 3600 / 60)

/-- Model of Go `t.Format(time.RFC3339Nano)`
(`"2006-01-02T15:04:05.999999999Z07:00"`). -/
def formatRFC3339Nano (t : GoTime) : Bytes :=
  padDec 4 t.year ++ '-' :: padDec 2 t.month ++ '-' :: padDec 2 t.day ++
  'T' :: padDec 2 t.hour ++ ':' :: padDec 2 t.minute ++ ':' :: padDec 2 t.second ++
  fracNano t.nsec ++ zoneSuffix t.offset

/-- Read exactly `w` decimal digits from the front of `s`
(Go's fixed-width `getnum` for zero-padded layout fields). -/
def takeFixedNum (w : Nat) (s : Bytes) : Option (Nat × Bytes) :=
  let pre := s.take w
  if pre.length = w ∧ pre.all (fun c => 48 ≤ c.toNat ∧ c.toNat ≤ 57) then
    match parseDigits 0 pre with
    | some n => some (n, s.drop w)
    | none => none
  else none

/-- One step of the Go `time.Parse` layout matcher for the layout strings in
`timeFormats`: recognizes the reference chunks `2006` (year), `01` (month),
`02` (day), `15` (hour), `04` (minute), `05` (second) and `-07` (numeric
zone hour), and otherwise requires the literal layout byte to match the
input byte.  Returns the parsed time; fails on any mismatch, on leftover
input, or on out-of-range calendar fields (Go's range validation). -/
def goTimeParseLoop : Bytes → Bytes → GoTime → Option GoTime
  | [], [], t => some t
  | [], _ :: _, _ => none
  | '2' :: '0' :: '0' :: '6' :: layout, s, t =>
    match takeFixedNum 4 s with
    | some (n, s') => goTimeParseLoop layout s' { t with year := n }
    | none => none
  | '0' :: '1' :: layout, s, t =>
    match takeFixedNum 2 s with
    | some (n, s') => goTimeParseLoop layout s' { t with month := n }
    | none => none
  | '0' :: '2' :: layout, s, t =>
    match takeFixedNum 2 s with
    | some (n, s') => goTimeParseLoop layout s' { t with day := n }
    | none => none
  | '1' :: '5' :: layout, s, t =>
    match takeFixedNum 2 s with
    | some (n, s') => goTimeParseLoop layout s' { t with hour := n }
    | none => none
  | '0' :: '4' :: layout, s, t =>
    match takeFixedNum 2 s with
    | some (n, s') => goTimeParseLoop layout s' { t with minute := n }
    | none => none
  | '0' :: '5' :: layout, s, t =>
    match takeFixedNum 2 s with
    | some (n, s') => goTimeParseLoop layout s' { t with second := n }
    | none => none
  | '-' :: '0' :: '7' :: layout, s, t =>
    match s with
    | sign :: s1 =>
      if sign = '+' ∨ sign = '-' then
        match takeFixedNum 2 s1 with
        | some (n, s') =>
          let off : Int := (if sign = '-' then -1 else 1) * (n : Int) * 3600
          goTimeParseLoop layout s' { t with offset := off }
        | none => none
      else none
    | [] => none
  | c :: layout, s, t =>
    match s with
    | c' :: s' => if c = c' then goTimeParseLoop layout s' t else none
    | [] => none

/-- Model of Go `time.Parse(layout, s)` for the layouts used by the codec:
run the matcher from the zero time, then validate field ranges as Go's
date checking does. -/
def goTimeParse (layout s : Bytes) : Option GoTime :=
  match goTimeParseLoop layout s zeroTime with
  | none => none
  | some t =>
    if 1 ≤ t.month ∧ t.month ≤ 12 ∧ 1 ≤ t.day ∧ t.day ≤ 31 ∧
        t.hour ≤ 23 ∧ t.minute ≤ 59 ∧ t.second ≤ 59 then
      some t
    else none

/-- `timeFormats` from the source, in order. -/
def timeFormats : List Bytes :=
  [("2006-01-02 15:04:05-07").toList,
   ("2006-01-02 15:04:05").toList,
   ("2006-01-02 15:04").toList,
   ("15:04:05-07").toList,
   ("15:04:05").toList,
   ("2006-01-02").toList]

/-- The format-trying loop of `parseTime`: first layout that parses wins;
when all fail the result is the parse error and the zero time (each failed
`time.Parse` wrote the zero `time.Time` through the out-pointer). -/
def tryTimeFormats (s : Bytes) : List Bytes → Outcome × GoTime
  | [] => (.error .parseError, zeroTime)
  | f :: fs =>
    match goTimeParse f s with
    | some t => (.ok, t)
    | none => tryTimeFormats s fs

/-- `parseTime` from the source: append a `0` when the string ends in a
single fractional digit (`s[len(s)-2] == '.'`, which panics in Go when the
string is shorter than two bytes), then try each layout in order. -/
def parseTime (s : Bytes) : Outcome × GoTime :=
  if s.length < 2 then (.panicked, zeroTime)
  else
    let s1 := if s.getD (s.length - 2) ' ' = '.' then s ++ ['0'] else s
    tryTimeFormats s1 timeFormats

/-- Lower-case hex digit character for `d < 16`. -/
def hexDigitChar (d : Nat) : Char :=
  if d < 10 then Char.ofNat (48 + d) else Char.ofNat (87 + d)

/-- Go `fmt.Sprintf("%x", b)` on a byte slice: two lower-case hex digits per
byte. -/
def hexEncode (b : Bytes) : Bytes :=
  b.flatMap fun c => [hexDigitChar (c.toNat / 16 % 16), hexDigitChar (c.toNat % 16)]

/-- Value of one hex digit character, if any. -/
def hexVal (c : Char) : Option Nat :=
  if 48 ≤ c.toNat ∧ c.toNat ≤ 57 then some (c.toNat - 48)
  else if 97 ≤ c.toNat ∧ c.toNat ≤ 102 then some (c.toNat - 87)
  else if 65 ≤ c.toNat ∧ c.toNat ≤ 70 then some (c.toNat - 55)
  else none

/-- Go `hex.DecodeString` with the error discarded (as the `split` source
does): decode hex digit pairs until the input is malformed or exhausted and
keep whatever was decoded so far. -/
def hexDecodePartial : Bytes → Bytes
  | c1 :: c2 :: rest =>
    match hexVal c1, hexVal c2 with
    | some h, some l => Char.ofNat (h * 16 + l) :: hexDecodePartial rest
    | _, _ => []
  | _ => []

/-- `math.MaxFloat32` as an exact rational: `(2 - 2^-23) * 2^127`. -/
def maxFloat32Q : ℚ := ((2 : ℚ) ^ 24 - 1) * 2 ^ 104

/-- Approximate model of Go `strconv.ParseFloat(s, bitSize)`: optional sign,
decimal digits with optional fraction and exponent, evaluated exactly as a
rational.  Binary rounding is not modelled; the embedded code only observes
success/failure of this parse, never the numeric result. -/
def goParseFloat (s : Bytes) : Except GoError ℚ :=
  let mant := s.takeWhile fun c => c ≠ 'e' ∧ c ≠ 'E'
  let rest := s.dropWhile fun c => c ≠ 'e' ∧ c ≠ 'E'
  let expPart : Option Bytes := match rest with | [] => none | _ :: es => some es
  let (neg, mant1) :=
    match mant with
    | '-' :: r => (true, r)
    | '+' :: r => (false, r)
    | _ => (false, mant)
  let ip := mant1.takeWhile (· ≠ '.')
  let fpRest := mant1.dropWhile (· ≠ '.')
  let fp := match fpRest with | [] => [] | _ :: r => r
  if ip = [] ∧ fp = [] then .error .parseError
  else
    match (if ip = [] then some 0 else parseDigits 0 ip),
          (if fp = [] then some 0 else parseDigits 0 fp) with
    | some ipv, some fpv =>
      let base : ℚ := (ipv : ℚ) + (fpv : ℚ) / ((10 : ℚ) ^ fp.length)
      let signed := if neg then -base else base
      match expPart with
      | none => .ok signed
      | some es =>
        let (eneg, es1) :=
          match es with
          | '-' :: r => (true, r)
          | '+' :: r => (false, r)
          | _ => (false, es)
        match es1, parseDigits 0 es1 with
        | [], _ => .error .parseError
        | _, some ev =>
          .ok (signed * (10 : ℚ) ^ (if eneg then -(ev : Int) else (ev : Int)))
        | _, none => .error .parseError
    | _, _ => .error .parseError

/-- Approximate model of `strconv.FormatFloat(x, 'f', scale, 64)`: fixed-point
decimal rendering with `scale` fractional digits (binary rounding not
modelled; no theorem observes this output). -/
def formatFloatFixed (q : ℚ) (scale : Int) : Bytes :=
  let sign : Bytes := if q < 0 then ['-'] else []
  let a := |q|
  if scale ≤ 0 then sign ++ natDec (round a).toNat
  else
    let p : Nat := 10 ^ scale.toNat
    let m := (round (a * (p : ℚ))).toNat
    sign ++ natDec (m / p) ++ '.' :: padDec scale.toNat (m % p)

/-- Approximate model of `strconv.FormatFloat(n, 'f', -1, 32)` (the
`pgFloat.String` rendering): rounding to float32 and shortest-digit
selection are not modelled; rendered here as a six-fractional-digit decimal
with trailing zeros stripped.  No theorem observes this output. -/
def formatFloatShortest32 (q : ℚ) : Bytes :=
  let sign : Bytes := if q < 0 then ['-'] else []
  let a := |q|
  let m := (round (a * 1000000)).toNat
  let fp := (padDec 6 (m % 1000000)).reverse.dropWhile (· = '0') |>.reverse
  sign ++ natDec (m / 1000000) ++ (if fp = [] then [] else '.' :: fp)

/-- Value-kind descriptors: first-order stand-ins for the source's
`Valstructor` constructor closures (`SmallInt`, `Integer`, `BigInt`,
`Numeric(p,s)`, `Real`, `Double`, `Bool`, `Text`, `VarChar(n)`, `Char(n)`,
`Bytea`, `Enum(labels)`, `Timestamp`, `HStore`, `Array(el)`, `Row(ks)`,
`Record(cols)`). -/
inductive Kind where
  | smallInt
  | integer
  | bigInt
  | numeric (prec scale : Int)
  | real
  | double
  | boolean
  | text
  | varChar (n : Nat)
  | char (n : Nat)
  | bytea
  | enum (labels : List Bytes)
  | timestamp
  | hstore
  | array (el : Kind)
  | row (ks : List Kind)
  | record (cols : List (Bytes × Kind))

/-- The value tree: one variant per concrete Go value struct, carrying the
same fields (`pgRecord`'s unused `rel` back-pointer is omitted). -/
inductive PgValue where
  /-- `pgInteger{n, bs, valid}` -/
  | integer (n : Int) (bs : Nat) (valid : Bool)
  /-- `pgNumeric{s, prec, scale, valid}` -/
  | numeric (s : Bytes) (prec scale : Int) (valid : Bool)
  /-- `pgFloat{n, bs, valid}`; the float64 payload is carried as an exact
  rational -/
  | float (n : ℚ) (bs : Nat) (valid : Bool)
  /-- `pgBool{b, valid}` -/
  | boolean (b : Bool) (valid : Bool)
  /-- `pgText{s, n, p, valid}` -/
  | text (s : Bytes) (n : Nat) (p : Bool) (valid : Bool)
  /-- `pgBytea{b, valid}` -/
  | bytea (b : Bytes) (valid : Bool)
  /-- `pgEnum{s, ls, valid}` -/
  | enum (s : Bytes) (ls : List Bytes) (valid : Bool)
  /-- `pgTimestamp{t, valid}` (the unused `tz` field is omitted) -/
  | timestamp (t : GoTime) (valid : Bool)
  /-- `pgRow{vs, valid}` -/
  | row (vs : List PgValue) (valid : Bool)
  /-- `pgRecord{vs, cs, valid}` -/
  | record (vs : List PgValue) (cols : List (Bytes × Kind)) (valid : Bool)
  /-- `pgArray{vs, el, valid}` -/
  | array (vs : List PgValue) (el : Kind) (valid : Bool)
  /-- `pgHStore{m, valid}`; the Go map is carried as an association list -/
  | hstore (m : List (Bytes × PgValue)) (valid : Bool)

/-- The dynamic `interface{}` sources fed to `Scan`.  `int` stands for Go's
`int` (and the other signed fixed-width flavors, which the source converts
identically); `uint` for `uint`/`uint64`. -/
inductive Src where
  | nil
  | int (v : Int)
  | uint (v : Nat)
  | float64 (x : ℚ)
  | float32 (x : ℚ)
  | str (s : Bytes)
  | bytes (b : Bytes)
  | boolean (b : Bool)
  | time (t : GoTime)
  | list (xs : List Src)
  /-- an already-constructed `Value` handed to `pgArray.Append` -/
  | value (v : PgValue)

/-- Whether a source is the untyped `nil`. -/
def Src.isNil : Src → Bool
  | .nil => true
  | _ => false

/-- `fitInt(v, bitSize)` from the source: convert the native integer to
`int64` (`uint`/`uint64` must be strictly below `math.MaxInt64`; any
non-integer source leaves the Go zero value `r = 0`), then check the width
with a strict `<` against `math.MaxInt{8,16,32}` — note: no lower bound is
checked, and the maximum representable value itself is rejected. -/
def fitInt (src : Src) (bitSize : Nat) : Except GoError Int :=
  let conv : Except GoError Int :=
    match src with
    | .int v => .ok v
    | .uint n => if n < 2 ^ 63 - 1 then .ok (Int.ofNat n) else .error .rangeError
    | _ => .ok 0
  match conv with
  | .error e => .error e
  | .ok r =>
    match bitSize with
    | 8 => if r < 127 then .ok r else .error .rangeError
    | 16 => if r < 32767 then .ok r else .error .rangeError
    | 32 => if r < 2147483647 then .ok r else .error .rangeError
    | 64 => .ok r
    | _ => .error .invalidBitSize

/-- `srcToBytes`: accept `string` or `[]byte`, reject anything else. -/
def srcToBytes : Src → Except GoError Bytes
  | .str s => .ok s
  | .bytes b => .ok b
  | _ => .error .typeMismatch

/-- Scanner state of `split`: collected parts, the escape `ignore` flag, the
brace nesting depth, the outer `mode` closer, the current element's
`closer`, and the `a`/`z` element span marks (`-1` = unset, as in the
source). -/
structure SplitSt where
  parts : List Bytes
  ignore : Bool
  dep : Int
  mode : Char
  closer : Char
  a : Int
  z : Int

/-- Initial `split` scanner state (Go zero values). -/
def initSplitSt : SplitSt :=
  ⟨[], false, 0, Char.ofNat 0, Char.ofNat 0, -1, -1⟩

/-- The trailing `if z != -1` block of the `split` loop body: extract
`s[a:z+1]`, unescape `\\` and the mode's quote escape, hex-decode a
`\x`-prefixed part (decode error discarded), append it, and reset the
marks. -/
def splitPost (s : Bytes) (st : SplitSt) : SplitSt :=
  if st.z ≠ -1 then
    let part := (s.drop st.a.toNat).take (st.z + 1 - st.a).toNat
    let part := goReplace part [backslashChar, backslashChar] [backslashChar]
    let part :=
      if st.mode = '}' then goReplace part [backslashChar, quoteChar] [quoteChar]
      else if st.mode = ')' then goReplace part [quoteChar, quoteChar] [quoteChar]
      else part
    let part :=
      if 2 ≤ part.length ∧ part.getD 0 ' ' = backslashChar ∧ part.getD 1 ' ' = 'x' then
        hexDecodePartial (part.drop 2)
      else part
    { st with parts := st.parts ++ [part], a := -1, z := -1, dep := 0 }
  else st

/-- One iteration of the `split` loop at index `i`, translating the source's
`switch` arms in order: the `i == 0` mode check, then the `a == -1`
element-start logic, then the end-of-input delimiter check, then the
in-element escape/closer logic (whose nested array-depth guard repeats the
`b == '}'` disjunct exactly as the source does), followed by the `z != -1`
part-extraction block. -/
def splitStep (s : Bytes) (st : SplitSt) (i : Nat) : Except GoError SplitSt :=
  let b := s.getD i (Char.ofNat 0)
  let stepped : Except GoError SplitSt :=
    if i = 0 then
      if b = '{' then .ok { st with mode := '}' }
      else if b = '(' then .ok { st with mode := ')' }
      else .error .unknownFormat
    else if st.a = -1 then
      if b = ' ' ∨ b = ',' then .ok st
      else if b = '{' then .ok { st with a := (i : Int), dep := st.dep + 1, closer := '}' }
      else if b = quoteChar then .ok { st with a := (i : Int) + 1, closer := quoteChar }
      else .ok { st with a := (i : Int), closer := ',' }
    else if i = s.length - 1 then
      if b ≠ st.mode then .error .missingCloser
      else .ok { st with z := (i : Int) - 1 }
    else
      if !st.ignore ∧ st.mode = '}' ∧ b = backslashChar then
        .ok { st with ignore := true }
      else if !st.ignore ∧ st.mode = ')' ∧ b = quoteChar ∧
          s.getD (i + 1) (Char.ofNat 0) = quoteChar then
        .ok { st with ignore := true }
      else if st.ignore then .ok { st with ignore := false }
      else if st.closer = '}' ∧ (b = '}' ∨ b = '}') then
        if b = '{' then .ok { st with dep := st.dep + 1 }
        else if b = '}' then
          let dep' := st.dep - 1
          .ok { st with dep := dep', z := if dep' = 0 then (i : Int) else st.z }
        else .ok st
      else if st.closer = quoteChar ∧ b = st.closer then .ok { st with z := (i : Int) - 1 }
      else if st.closer = ',' ∧ b = st.closer then .ok { st with z := (i : Int) - 1 }
      else .ok st
  match stepped with
  | .error e => .error e
  | .ok st' => .ok (splitPost s st')

/-- Run `k` iterations of the `split` loop starting at index `i`. -/
def splitFold (s : Bytes) : SplitSt → Nat → Nat → Except GoError SplitSt
  | st, _, 0 => .ok st
  | st, i, k + 1 =>
    match splitStep s st i with
    | .error e => .error e
    | .ok st' => splitFold s st' (i + 1) k

/-- `split(s)` from the source: scan every byte and return the collected
parts. -/
def split (s : Bytes) : Except GoError (List Bytes) :=
  match splitFold s initSplitSt 0 s.length with
  | .error e => .error e
  | .ok st => .ok st.parts

/-- Go map assignment `m[k] = v` on the association-list model: overwrite an
existing key, otherwise append. -/
def mapSet (m : List (Bytes × Bytes)) (key v : Bytes) : List (Bytes × Bytes) :=
  match m with
  | [] => [(key, v)]
  | (k', v') :: rest =>
    if k' = key then (key, v) :: rest else (k', v') :: mapSet rest key v

/-- The `if kz != -1 && vz != -1` block of `parseHStore`: slice out the key
and value spans, drop `NULL` values, unescape and store the rest, then
reset the marks. -/
def hstorePost (s : Bytes) (ka kz va vz : Int) (m : List (Bytes × Bytes)) :
    Int × Int × Int × Int × List (Bytes × Bytes) :=
  if kz ≠ -1 ∧ vz ≠ -1 then
    let k := (s.drop ka.toNat).take (kz + 1 - ka).toNat
    let v := (s.drop va.toNat).take (vz + 1 - va).toNat
    let m' :=
      if v = nullb then m
      else
        let k1 := goReplace (goReplace k [backslashChar, backslashChar] [backslashChar])
          [backslashChar, quoteChar] [quoteChar]
        let v1 := goReplace (goReplace v [backslashChar, backslashChar] [backslashChar])
          [backslashChar, quoteChar] [quoteChar]
        mapSet m k1 v1
    (-1, -1, -1, -1, m')
  else (ka, kz, va, vz, m)

/-- The `parseHStore` scan loop: a 4-state machine (`0` awaiting key, `1` in
key, `2` awaiting value, `3` in value) over the bytes, with backslash
skipping the next byte and the bare `NULL` token recognized by direct
indexed comparison (which panics in Go when it reads past the end).  The
fuel counts loop iterations; `s.length` iterations always suffice since the
index strictly increases. -/
def parseHStoreLoop (s : Bytes) :
    Nat → Nat → Nat → Int → Int → Int → Int → List (Bytes × Bytes) →
    Outcome × List (Bytes × Bytes)
  | 0, i, _, _, _, _, _, m =>
    if s.length ≤ i then (.ok, m) else (.fuelOut, m)
  | fuel + 1, i, st, ka, kz, va, vz, m =>
    if s.length ≤ i then (.ok, m)
    else
      let b := s.getD i (Char.ofNat 0)
      if b = backslashChar then
        let (ka', kz', va', vz', m') := hstorePost s ka kz va vz m
        parseHStoreLoop s fuel (i + 2) st ka' kz' va' vz' m'
      else if st = 0 then
        let (st', ka1) := if b = quoteChar then (1, (i : Int) + 1) else (st, ka)
        let (ka', kz', va', vz', m') := hstorePost s ka1 kz va vz m
        parseHStoreLoop s fuel (i + 1) st' ka' kz' va' vz' m'
      else if st = 1 then
        let (st', kz1) := if b = quoteChar then (2, (i : Int) - 1) else (st, kz)
        let (ka', kz', va', vz', m') := hstorePost s ka kz1 va vz m
        parseHStoreLoop s fuel (i + 1) st' ka' kz' va' vz' m'
      else if st = 2 then
        if b = 'N' then
          match s.get? (i + 1), s.get? (i + 2), s.get? (i + 3) with
          | some c1, some c2, some c3 =>
            if c1 = 'U' ∧ c2 = 'L' ∧ c3 = 'L' then
              let (ka', kz', va', vz', m') :=
                hstorePost s ka kz (i : Int) ((i : Int) + 3) m
              parseHStoreLoop s fuel (i + 1) 0 ka' kz' va' vz' m'
            else
              let (ka', kz', va', vz', m') := hstorePost s ka kz va vz m
              parseHStoreLoop s fuel (i + 1) st ka' kz' va' vz' m'
          | _, _, _ => (.panicked, m)
        else if b = quoteChar then
          let (ka', kz', va', vz', m') := hstorePost s ka kz ((i : Int) + 1) vz m
          parseHStoreLoop s fuel (i + 1) 3 ka' kz' va' vz' m'
        else
          let (ka', kz', va', vz', m') := hstorePost s ka kz va vz m
          parseHStoreLoop s fuel (i + 1) st ka' kz' va' vz' m'
      else
        let (st', vz1) := if b = quoteChar then (0, (i : Int) - 1) else (st, vz)
        let (ka', kz', va', vz', m') := hstorePost s ka kz va vz1 m
        parseHStoreLoop s fuel (i + 1) st' ka' kz' va' vz' m'

/-- `parseHStore(s)`: run the scan loop from the initial state.  The Go
function always returns a nil error; the outcome records the possible
index-out-of-range panic of the `NULL` lookahead. -/
def parseHStore (s : Bytes) : Outcome × List (Bytes × Bytes) :=
  parseHStoreLoop s s.length 0 0 (-1) (-1) (-1) (-1) []

/-- `strings.TrimRight(s, " ")`. -/
def trimRightSpaces (s : Bytes) : Bytes :=
  (s.reverse.dropWhile (· = ' ')).reverse

/-- `pgInteger.Scan` on a value with current payload `n0` and width `bs`:
`nil` clears validity; otherwise validity is set first, then native integers
go through `fitInt` (whose multi-assignment writes `0` into the payload on
failure), text goes through `strconv.ParseInt`, and any other source is a
type mismatch that leaves the payload untouched. -/
def pgIntegerScan (n0 : Int) (bs : Nat) (src : Src) : Outcome × PgValue :=
  match src with
  | .nil => (.ok, .integer n0 bs false)
  | .int _ | .uint _ =>
    match fitInt src bs with
    | .error e => (.error e, .integer 0 bs true)
    | .ok r => (.ok, .integer r bs true)
  | .str s | .bytes s =>
    match goParseInt s bs with
    | .error e => (.error e, .integer 0 bs true)
    | .ok r => (.ok, .integer r bs true)
  | _ => (.error .typeMismatch, .integer n0 bs true)

/-- `pgNumeric.Scan`: floats are rendered with `FormatFloat(x, 'f', scale,
64)`, text is stored verbatim, anything else is a type mismatch. -/
def pgNumericScan (s0 : Bytes) (prec scale : Int) (src : Src) : Outcome × PgValue :=
  match src with
  | .nil => (.ok, .numeric s0 prec scale false)
  | .float32 x => (.ok, .numeric (formatFloatFixed x scale) prec scale true)
  | .float64 x => (.ok, .numeric (formatFloatFixed x scale) prec scale true)
  | .str s => (.ok, .numeric s prec scale true)
  | .bytes s => (.ok, .numeric s prec scale true)
  | _ => (.error .typeMismatch, .numeric s0 prec scale true)

/-- `pgFloat.Scan`: a `float64` source overflows a 32-bit value only when it
exceeds `math.MaxFloat32` (no lower bound is checked), text goes through
`strconv.ParseFloat` (which assigns `0` on failure), anything else is a
type mismatch. -/
def pgFloatScan (n0 : ℚ) (bs : Nat) (src : Src) : Outcome × PgValue :=
  match src with
  | .nil => (.ok, .float n0 bs false)
  | .float64 x =>
    if bs = 32 ∧ maxFloat32Q < x then (.error .rangeError, .float n0 bs true)
    else (.ok, .float x bs true)
  | .float32 x => (.ok, .float x bs true)
  | .str s | .bytes s =>
    match goParseFloat s with
    | .error e => (.error e, .float 0 bs true)
    | .ok x => (.ok, .float x bs true)
  | _ => (.error .typeMismatch, .float n0 bs true)

/-- `pgBool.Scan`: the payload is reset to `false` before the type switch;
text sets `true` exactly when the first byte is `t` or `1` (indexing an
empty string panics), a Go `int` sets `true` exactly for `1`, a native bool
is stored, and any other source type is a mismatch. -/
def pgBoolScan (b0 : Bool) (src : Src) : Outcome × PgValue :=
  match src with
  | .nil => (.ok, .boolean b0 false)
  | .str s | .bytes s =>
    match s with
    | [] => (.panicked, .boolean false true)
    | c :: _ => (.ok, .boolean (c = 't' ∨ c = '1') true)
  | .int v => (.ok, .boolean (v = 1) true)
  | .boolean b => (.ok, .boolean b true)
  | _ => (.error .typeMismatch, .boolean false true)

/-- `pgText.Scan` for a value with limit `n` and padding flag `p`: text is
stored, then `Char(n)` right-trims spaces, errors when the trimmed text is
longer than `n` and right-pads otherwise, while `VarChar(n)` (`n > 0`)
silently truncates. -/
def pgTextScan (s0 : Bytes) (n : Nat) (p : Bool) (src : Src) : Outcome × PgValue :=
  match src with
  | .nil => (.ok, .text s0 n p false)
  | .str x | .bytes x =>
    if p then
      let tr := trimRightSpaces x
      if n < tr.length then (.error .lengthError, .text tr n p true)
      else if tr.length < n then
        (.ok, .text (tr ++ List.replicate (n - tr.length) ' ') n p true)
      else (.ok, .text tr n p true)
    else if 0 < n ∧ n < x.length then (.ok, .text (x.take n) n p true)
    else (.ok, .text x n p true)
  | _ => (.error .typeMismatch, .text s0 n p true)

/-- `pgBytea.Scan`: only `[]byte` sources are accepted (strings are not). -/
def pgByteaScan (b0 : Bytes) (src : Src) : Outcome × PgValue :=
  match src with
  | .nil => (.ok, .bytea b0 false)
  | .bytes x => (.ok, .bytea x true)
  | _ => (.error .typeMismatch, .bytea b0 true)

/-- `pgEnum.Scan`: text is stored, then validated against the label set. -/
def pgEnumScan (s0 : Bytes) (ls : List Bytes) (src : Src) : Outcome × PgValue :=
  match src with
  | .nil => (.ok, .enum s0 ls false)
  | .str x | .bytes x =>
    if ls.any (· = x) then (.ok, .enum x ls true)
    else (.error .invalidEnumValue, .enum x ls true)
  | _ => (.error .typeMismatch, .enum s0 ls true)

/-- `pgTimestamp.Scan`: a native `time.Time` is stored; text goes through
`parseTime`, whose out-pointer leaves the zero time on a failed parse and
the old time when it panics before parsing. -/
def pgTimestampScan (t0 : GoTime) (src : Src) : Outcome × PgValue :=
  match src with
  | .nil => (.ok, .timestamp t0 false)
  | .time x => (.ok, .timestamp x true)
  | .str s | .bytes s =>
    match parseTime s with
    | (.panicked, _) => (.panicked, .timestamp t0 true)
    | (o, t') => (o, .timestamp t' true)
  | _ => (.error .typeMismatch, .timestamp t0 true)

mutual

/-- Blank value created by a kind's `Valstructor` applied to `nil`. -/
def blankValue : Kind → PgValue
  | .smallInt => .integer 0 16 false
  | .integer => .integer 0 32 false
  | .bigInt => .integer 0 64 false
  | .numeric p s => .numeric [] p s false
  | .real => .float 0 32 false
  | .double => .float 0 64 false
  | .boolean => .boolean false false
  | .text => .text [] 0 false false
  | .varChar n => .text [] n false false
  | .char n => .text [] n true false
  | .bytea => .bytea [] false
  | .enum ls => .enum [] ls false
  | .timestamp => .timestamp zeroTime false
  | .hstore => .hstore [] false
  | .array el => .array [] el false
  | .row ks => .row (blankList ks) false
  | .record cols => .record (blankCols cols) cols false

/-- Blank children of a `Row` kind. -/
def blankList : List Kind → List PgValue
  | [] => []
  | k :: ks => blankValue k :: blankList ks

/-- Blank children of a `Record` kind. -/
def blankCols : List (Bytes × Kind) → List PgValue
  | [] => []
  | c :: cs => blankValue c.2 :: blankCols cs

end

/-- `pgHStore.Scan`: the map is reset, `nil` clears validity, `[]byte`
sources are parsed by `parseHStore` and each surviving pair becomes a
`Text` value (the source's `map[string]string` source case is not modelled;
any other source type is a mismatch).  Go's randomized map iteration order
is fixed here to the association-list order. -/
def hstoreScan (src : Src) : Outcome × PgValue :=
  match src with
  | .nil => (.ok, .hstore [] false)
  | .bytes b =>
    match parseHStore b with
    | (.ok, keyvals) =>
      (.ok, .hstore (keyvals.map fun kv => (kv.1, PgValue.text kv.2 0 false true)) true)
    | (o, _) => (o, .hstore [] true)
  | _ => (.error .typeMismatch, .hstore [] true)

/-- The per-column loop of `rowScanner`: scan each destination in order
with the child scanner `scan1` and abort on the first failure, leaving the
later children untouched. -/
def scanPairs (scan1 : PgValue → Src → Outcome × PgValue) :
    List PgValue → List Src → Outcome × List PgValue
  | d :: ds, x :: xs =>
    let (o, d') := scan1 d x
    match o with
    | .ok =>
      let (o2, ds') := scanPairs scan1 ds xs
      (o2, d' :: ds')
    | _ => (o, d' :: ds)
  | ds, _ => (.ok, ds)

/-- `rowScanner(src, dests)` from the source: a `nil` source is an assertion
panic; a native list must match the column count and is scanned pairwise;
any other source is converted to bytes, split, length-checked and scanned
pairwise.  The child scanner is passed in so the recursion stays structural
in the fuel of `scanValue`. -/
def rowScanner (scan1 : PgValue → Src → Outcome × PgValue)
    (dests : List PgValue) (src : Src) : Outcome × List PgValue :=
  match src with
  | .nil => (.panicked, dests)
  | .list xs =>
    if dests.length ≠ xs.length then (.error .arityError, dests)
    else scanPairs scan1 dests xs
  | _ =>
    match srcToBytes src with
    | .error e => (.error e, dests)
    | .ok b =>
      match split b with
      | .error e => (.error e, dests)
      | .ok parts =>
        if parts.length ≠ dests.length then (.error .arityError, dests)
        else scanPairs scan1 dests (parts.map .bytes)

/-- The append loop of `pgArray.Scan`: an already-constructed `Value` is
stored directly (kind unchecked, as the source notes); otherwise a blank
element is built from the element kind and scanned with `scan1`, aborting
on failure with the elements appended so far retained. -/
def arrayAppendAll (scan1 : PgValue → Src → Outcome × PgValue) (el : Kind) :
    List PgValue → List Src → Outcome × List PgValue
  | acc, [] => (.ok, acc)
  | acc, x :: xs =>
    match x with
    | .value v => arrayAppendAll scan1 el (acc ++ [v]) xs
    | _ =>
      let (o, vx) := scan1 (blankValue el) x
      match o with
      | .ok => arrayAppendAll scan1 el (acc ++ [vx]) xs
      | _ => (o, acc)

/-- `Scan` dispatch over the value variants.  Scalar scans are
fuel-independent; container scans consume one unit of fuel per nesting
level (a pure embedding artifact — the Go recursion is bounded by the kind
tree, and every concrete evaluation below uses ample fuel).  Structural on
the fuel so the kernel can evaluate it. -/
def scanValue : Nat → PgValue → Src → Outcome × PgValue := fun fuel v src =>
  match v with
  | .integer n bs _ => pgIntegerScan n bs src
  | .numeric s p sc _ => pgNumericScan s p sc src
  | .float n bs _ => pgFloatScan n bs src
  | .boolean b _ => pgBoolScan b src
  | .text s n p _ => pgTextScan s n p src
  | .bytea b _ => pgByteaScan b src
  | .enum s ls _ => pgEnumScan s ls src
  | .timestamp t _ => pgTimestampScan t src
  | .hstore _ _ => hstoreScan src
  | .row vs _ =>
    match src with
    | .nil => (.ok, .row vs false)
    | _ =>
      match fuel with
      | fuel' + 1 =>
        let (o, vs') := rowScanner (scanValue fuel') vs src
        (o, .row vs' true)
      | 0 => (.fuelOut, .row vs true)
  | .record vs cols _ =>
    match src with
    | .nil => (.ok, .record vs cols false)
    | _ =>
      match fuel with
      | fuel' + 1 =>
        let (o, vs') := rowScanner (scanValue fuel') vs src
        (o, .record vs' cols true)
      | 0 => (.fuelOut, .record vs cols true)
  | .array _ el _ =>
    match src with
    | .nil => (.ok, .array [] el false)
    | .list xs =>
      match fuel with
      | fuel' + 1 =>
        let (o, vs') := arrayAppendAll (scanValue fuel') el [] xs
        (o, .array vs' el true)
      | 0 => (.fuelOut, .array [] el true)
    | _ =>
      match srcToBytes src with
      | .error e => (.error e, .array [] el true)
      | .ok b =>
        match split b with
        | .error e => (.error e, .array [] el true)
        | .ok parts =>
          match fuel with
          | fuel' + 1 =>
            let (o, vs') := arrayAppendAll (scanValue fuel') el [] (parts.map .bytes)
            (o, .array vs' el true)
          | 0 => (.fuelOut, .array [] el true)

/-- `IsNull()`: every value kind reports `!valid`. -/
def isNull : PgValue → Bool
  | .integer _ _ valid => !valid
  | .numeric _ _ _ valid => !valid
  | .float _ _ valid => !valid
  | .boolean _ valid => !valid
  | .text _ _ _ valid => !valid
  | .bytea _ valid => !valid
  | .enum _ _ valid => !valid
  | .timestamp _ valid => !valid
  | .row _ valid => !valid
  | .record _ _ valid => !valid
  | .array _ _ valid => !valid
  | .hstore _ valid => !valid

/-- Whether a row child is written raw by `rowBytes` (the source's type
switch on `*pgNumeric, *pgInteger, *pgFloat, *pgBool`). -/
def rowRawChild : PgValue → Bool
  | .numeric _ _ _ _ | .integer _ _ _ | .float _ _ _ | .boolean _ _ => true
  | _ => false

/-- Whether an array child is written raw by `pgArray.bytes` (the source's
type switch on `*pgNumeric, *pgInteger, *pgFloat, *pgBool, *pgArray,
*pgTimestamp`). -/
def arrayRawChild : PgValue → Bool
  | .numeric _ _ _ _ | .integer _ _ _ | .float _ _ _ | .boolean _ _
  | .array _ _ _ | .timestamp _ _ => true
  | _ => false

/-- Children of a row, encoded with `enc` and comma-joined, quoting and
row-escaping every child that is not numeric/integer/float/bool
(`rowBytes`'s loop in the source). -/
def rowParts (enc : PgValue → Except GoError Bytes) :
    List PgValue → Except GoError Bytes
  | [] => .ok []
  | child :: rest =>
    match enc child with
    | .error e => .error e
    | .ok cb =>
      let chunk :=
        if rowRawChild child then cb
        else quoteChar :: escape cb 2 ++ [quoteChar]
      if rest.isEmpty then .ok chunk
      else
        match rowParts enc rest with
        | .error e => .error e
        | .ok tail => .ok (chunk ++ ',' :: tail)

/-- `rowBytes(valid, vs)` from the source: `NULL` for an invalid row, else
the comma-joined children wrapped in parentheses. -/
def rowBytes (enc : PgValue → Except GoError Bytes) (valid : Bool)
    (vs : List PgValue) : Except GoError Bytes :=
  if valid then
    match rowParts enc vs with
    | .error e => .error e
    | .ok inner => .ok ('(' :: inner ++ [')'])
  else .ok nullb

/-- Children of an array, encoded with `enc` and comma-joined (array-style
quoting, raw for numeric/integer/float/bool/array/timestamp children). -/
def arrayParts (enc : PgValue → Except GoError Bytes) :
    List PgValue → Except GoError Bytes
  | [] => .ok []
  | child :: rest =>
    match enc child with
    | .error e => .error e
    | .ok cb =>
      let chunk :=
        if arrayRawChild child then cb
        else quoteChar :: escape cb 1 ++ [quoteChar]
      if rest.isEmpty then .ok chunk
      else
        match arrayParts enc rest with
        | .error e => .error e
        | .ok tail => .ok (chunk ++ ',' :: tail)

/-- The `String()` method, parameterized by the encoder that stands for the
value's `bytes()`: an invalid value renders as the empty string; a valid
bytea renders its raw payload; every other valid kind's `String()` text
coincides with its `bytes()` rendering in the source (scalars produce the
same text in both methods, containers call `bytes()` and discard the
error). -/
def valueStringWith (enc : PgValue → Except GoError Bytes) (v : PgValue) :
    Bytes :=
  if isNull v then []
  else
    match v with
    | .bytea b _ => b
    | _ => match enc v with | .ok s => s | .error _ => []

/-- `pgHStore.bytes()`: `"key" => "value"` chunks joined with commas, the
value rendered via its `String()` method (`str1`), with no quoting of
special characters and no validity check, exactly as the source's
`pgHStore.bytes` does. -/
def hstoreBytes (str1 : PgValue → Bytes) : List (Bytes × PgValue) → Bytes
  | [] => []
  | (k, v) :: rest =>
    let chunk := quoteChar :: k ++ [quoteChar] ++ (" => ").toList ++
      quoteChar :: str1 v ++ [quoteChar]
    if rest.isEmpty then chunk else chunk ++ ',' :: hstoreBytes str1 rest

/-- The `bytes()` encode of each value kind: scalars render their payload
(or the `NULL` token when invalid); rows, records and arrays delegate to
the container renderers one fuel level down; an hstore joins `"k" => "v"`
chunks — with no validity check, exactly as `pgHStore.bytes` does.
Structural on the fuel (one unit per nesting level) so the kernel can
evaluate it; scalar encodes are fuel-independent. -/
def bytesValue : Nat → PgValue → Except GoError Bytes := fun fuel v =>
  match v with
  | .integer n _ valid => if valid then .ok (intDec n) else .ok nullb
  | .numeric s _ _ valid => if valid then .ok s else .ok nullb
  | .float n _ valid => if valid then .ok (formatFloatShortest32 n) else .ok nullb
  | .boolean b valid =>
    if valid then .ok (if b then ['t'] else ['f']) else .ok nullb
  | .text s _ _ valid => if valid then .ok s else .ok nullb
  | .bytea b valid =>
    if valid then .ok (backslashChar :: 'x' :: hexEncode b) else .ok nullb
  | .enum s _ valid => if valid then .ok s else .ok nullb
  | .timestamp t valid => if valid then .ok (formatRFC3339Nano t) else .ok nullb
  | .row vs valid =>
    match fuel with
    | fuel' + 1 => rowBytes (bytesValue fuel') valid vs
    | 0 => .error .fuelOut
  | .record vs _ valid =>
    match fuel with
    | fuel' + 1 => rowBytes (bytesValue fuel') valid vs
    | 0 => .error .fuelOut
  | .array vs _ valid =>
    if valid then
      match fuel with
      | fuel' + 1 =>
        match arrayParts (bytesValue fuel') vs with
        | .error e => .error e
        | .ok inner => .ok ('{' :: inner ++ ['}'])
      | 0 => .error .fuelOut
    else .ok nullb
  | .hstore m _ =>
    match fuel with
    | fuel' + 1 => .ok (hstoreBytes (valueStringWith (bytesValue fuel')) m)
    | 0 => .error .fuelOut

/-- `pgRecord.ValueBy(name)`: linear search of the column names, `none` for
Go's `nil` on a miss.  (The Go code indexes `k.vs[i]`, which panics when the
value list is shorter than the column list; constructed records always have
equal lengths, which this model reflects by walking the two lists
together.) -/
def recordValueBy : List (Bytes × Kind) → List PgValue → Bytes → Option PgValue
  | c :: cs, v :: vs, name =>
    if c.1 = name then some v else recordValueBy cs vs name
  | _, _, _ => none

/-- `pgRecord.Get(name)`: panics on a missing name, else returns the child. -/
def recordGet (cs : List (Bytes × Kind)) (vs : List PgValue) (name : Bytes) :
    Outcome × Option PgValue :=
  match recordValueBy cs vs name with
  | none => (.panicked, none)
  | some v => (.ok, some v)

/-- `pgRecord.Set(name, src)`: a recoverable "No column" error on a missing
name, else the child's `Scan` outcome. -/
def recordSet (fuel : Nat) (cs : List (Bytes × Kind)) (vs : List PgValue)
    (name : Bytes) (src : Src) : Outcome :=
  match recordValueBy cs vs name with
  | none => .error .notFound
  | some v => (scanValue fuel v src).1

/-- `pgHStore.ValueBy(name)`: map lookup, `none` for Go's `nil` on a miss. -/
def hstoreValueBy (m : List (Bytes × PgValue)) (name : Bytes) : Option PgValue :=
  match m with
  | [] => none
  | (k, v) :: rest => if k = name then some v else hstoreValueBy rest name

/-- `pgHStore.Get(name)`: calls `.Val()` on the result of `ValueBy` without
a nil check — a missing name dereferences a nil interface and panics. -/
def hstoreGet (m : List (Bytes × PgValue)) (name : Bytes) :
    Outcome × Option PgValue :=
  match hstoreValueBy m name with
  | none => (.panicked, none)
  | some v => (.ok, some v)

/-- `pgHStore.Set(name, src)`: calls `.Scan(src)` on the result of `ValueBy`
without a nil check — a missing name dereferences a nil interface and
panics rather than returning a recoverable error. -/
def hstoreSet (fuel : Nat) (m : List (Bytes × PgValue)) (name : Bytes)
    (src : Src) : Outcome :=
  match hstoreValueBy m name with
  | none => .panicked
  | some v => (scanValue fuel v src).1

/-- Children of a row or record value. -/
def rowChildren : PgValue → List PgValue
  | .row vs _ => vs
  | .record vs _ _ => vs
  | _ => []

/-- The map of an hstore value. -/
def hstoreMapOf : PgValue → List (Bytes × PgValue)
  | .hstore m _ => m
  | _ => []

/-! ### Concrete inputs used by the claims -/

/-- The row literal `(1,"jeff \"the\" bob",)` of the spec's record example. -/
def c3Literal : Bytes := ("(1,\"jeff \\\"the\\\" bob\",)").toList

/-- The `Row(Integer, Text, Text)` blank destination for the record
example. -/
def c3Row : PgValue :=
  .row [.integer 0 32 false, .text [] 0 false false, .text [] 0 false false] false

/-- The key-value text `"key" => "value1", "k2" => NULL` of the hstore
example. -/
def c7Input : Bytes := ("\"key\" => \"value1\", \"k2\" => NULL").toList

/-- A concrete timestamp: 2011-01-02 15:04:05 UTC. -/
def c1Time : GoTime := ⟨2011, 1, 2, 15, 4, 5, 0, 0⟩

/-! ### C1: decode/encode round-trip -/

/-- C1 (counterexample): the round trip `decode ∘ encode ∘ decode = decode`
fails for the Timestamp kind — decoding a native time succeeds, but its
encoded bytes `2011-01-02T15:04:05Z` (RFC3339 with a `T` separator) are
rejected by every layout in `timeFormats` — and for the Bytea kind, whose
encode produces the hex literal `\x68` that a direct decode stores verbatim
instead of hex-decoding. -/
theorem c1_roundtrip_fails_for_timestamp_and_bytea :
    scanValue 1 (.timestamp zeroTime false) (.time c1Time) = (.ok, .timestamp c1Time true) ∧
    bytesValue 1 (.timestamp c1Time true) = .ok (("2011-01-02T15:04:05Z").toList) ∧
    (scanValue 1 (.timestamp zeroTime false) (.bytes (("2011-01-02T15:04:05Z").toList))).1 =
      .error .parseError ∧
    scanValue 1 (.bytea [] false) (.bytes ['h']) = (.ok, .bytea ['h'] true) ∧
    bytesValue 1 (.bytea ['h'] true) = .ok (("\\x68").toList) ∧
    (scanValue 1 (.bytea [] false) (.bytes (("\\x68").toList))).2 =
      .bytea (("\\x68").toList) true ∧
    ("\\x68").toList ≠ ['h'] :=
  ⟨rfl, rfl, rfl, rfl, rfl, rfl, by decide⟩

/-! ### C2: split's end-of-input delimiter check -/

/-- C2 (counterexample): `split` silently accepts the unterminated array
literal `{1` — the first byte is `{`, the final byte `1` is not the closing
`}`, yet the call returns success (with zero elements) instead of a
missing-delimiter error, because the element-start case shadows the
end-of-input check. -/
theorem c2_split_accepts_unterminated_literal :
    split (("\x7b1").toList) = .ok [] ∧
    (("\x7b1").toList).getD 0 ' ' = '{' ∧
    (("\x7b1").toList).getLast? = some '1' ∧ ('1' : Char) ≠ '}' :=
  ⟨rfl, rfl, rfl, by decide⟩

/-! ### C3: the record example literal -/

/-- C3 (counterexample): decoding `(1,"jeff \"the\" bob",)` into
`Row(Integer, Text, Text)` does not leave the third slot NULL — the scan
succeeds and the third slot is a valid (non-NULL) text value, because
row-mode splitting treats `\"` as a terminating quote (only doubled quotes
escape in row mode), so the literal splits into three non-empty parts. -/
theorem c3_third_slot_not_null :
    (scanValue 5 c3Row (.bytes c3Literal)).1 = .ok ∧
    isNull ((rowChildren (scanValue 5 c3Row (.bytes c3Literal)).2).getD 2
      (.boolean false false)) = false :=
  ⟨rfl, rfl⟩

/-- C3 (amended): what the decode actually produces — the scan returns no
error; slot 1 holds integer `1`, but slot 2 holds `jeff \` (the quoted
element is ended by the `"` of `\"`), and slot 3 holds the remaining text
`the\" bob"` as a valid, non-NULL value. -/
theorem c3_actual_decode_result :
    scanValue 5 c3Row (.bytes c3Literal) =
      (.ok, .row [.integer 1 32 true,
                  .text (("jeff \\").toList) 0 false true,
                  .text (("the\\\" bob\"").toList) 0 false true] true) :=
  rfl

/-! ### C4: integer width checking -/

/-- C4 (code bug): `fitInt`'s width check contradicts the claim and the
function's own doc comment ("returns error if n does not fit into the int
bitsize"): the maximal 16-bit value `32767` is rejected with a range error
(the source compares with a strict `r < math.MaxInt16`), while `-40000`,
which does not fit in 16 bits, is accepted unchanged (no lower bound is
checked at all). -/
theorem c4_fitint_bound_bugs :
    (pgIntegerScan 0 16 (.int 32767)).1 = .error .rangeError ∧
    pgIntegerScan 0 16 (.int (-40000)) = (.ok, .integer (-40000) 16 true) ∧
    fitInt (.int 32767) 16 = .error .rangeError ∧
    fitInt (.int (-40000)) 16 = .ok (-40000) :=
  ⟨rfl, rfl, rfl, rfl⟩

/-! ### C7: hstore NULL-drop -/

/-- C7: decoding `"key" => "value1", "k2" => NULL` succeeds and yields a
map with `"key"` bound to the text value `"value1"` and no entry at all for
`"k2"` — the NULL-valued pair is dropped rather than preserved. -/
theorem c7_hstore_null_drop :
    (hstoreScan (.bytes c7Input)).1 = .ok ∧
    isNull (hstoreScan (.bytes c7Input)).2 = false ∧
    hstoreValueBy (hstoreMapOf (hstoreScan (.bytes c7Input)).2) (("key").toList) =
      some (.text (("value1").toList) 0 false true) ∧
    hstoreValueBy (hstoreMapOf (hstoreScan (.bytes c7Input)).2) (("k2").toList) = none :=
  ⟨rfl, rfl, rfl, rfl⟩

/-! ### C8: the 300-into-16-bit example -/

/-- C8 (counterexample): integer decode of the native value `300` into a
16-bit kind does not fail with a range error — `300` fits in a signed
16-bit integer and the scan succeeds. -/
theorem c8_smallint_300_succeeds :
    pgIntegerScan 0 16 (.int 300) = (.ok, .integer 300 16 true) :=
  rfl

/-- C8 (amended): decoding native `300` succeeds for both the 16-bit and
the 32-bit widths, storing the value unchanged. -/
theorem c8_int_300_both_widths :
    pgIntegerScan 0 16 (.int 300) = (.ok, .integer 300 16 true) ∧
    pgIntegerScan 0 32 (.int 300) = (.ok, .integer 300 32 true) :=
  ⟨rfl, rfl⟩

/-! ### C5: NULL encoding (counterexample) -/

/-- C5 (counterexample): a NULL child of a text-like kind is not rendered
as the bare `NULL` token during row encoding — a row with one NULL text
child encodes to `("NULL")` (the quoted four-letter string), not `(NULL)`. -/
theorem c5_null_text_child_quoted :
    bytesValue 1 (.row [.text [] 0 false false] true) =
      .ok ('(' :: quoteChar :: nullb ++ [quoteChar, ')']) ∧
    '(' :: quoteChar :: nullb ++ [quoteChar, ')'] ≠ '(' :: nullb ++ [')'] :=
  ⟨rfl, by decide⟩

/-! ### C6: boolean decode (counterexample) -/

/-- C6 (counterexample): boolean decode does not fail with a type mismatch
for text that is not `t`/`f`/`1`/`0`-prefixed, nor for non-bool non-text
sources: scanning the string `"x"` succeeds (storing `false`), and so does
scanning the Go int `5`. -/
theorem c6_bool_accepts_arbitrary_text :
    pgBoolScan false (.str ['x']) = (.ok, .boolean false true) ∧
    pgBoolScan false (.int 5) = (.ok, .boolean false true) :=
  ⟨rfl, rfl⟩

/-! ### C9: name misses (counterexample) -/

/-- C9 (counterexample): `pgHStore.Set` on a missing name is not a
recoverable not-found error — it calls `.Scan` on the nil result of
`ValueBy` and panics. -/
theorem c9_hstore_set_missing_panics :
    hstoreSet 1 [] (['x']) (.str ['a']) = .panicked :=
  rfl


/-! ### Unfolding equations (by `rfl`) for the scan dispatch arms whose
bodies match on a nested result; rewriting with these keeps the inner
scrutinee visible for case analysis. -/

theorem pgIntegerScan_int (n : Int) (bs : Nat) (v : Int) :
    pgIntegerScan n bs (.int v) =
      match fitInt (.int v) bs with
      | .error e => (.error e, .integer 0 bs true)
      | .ok r => (.ok, .integer r bs true) := rfl

theorem pgIntegerScan_uint (n : Int) (bs : Nat) (u : Nat) :
    pgIntegerScan n bs (.uint u) =
      match fitInt (.uint u) bs with
      | .error e => (.error e, .integer 0 bs true)
      | .ok r => (.ok, .integer r bs true) := rfl

theorem pgIntegerScan_str (n : Int) (bs : Nat) (s : Bytes) :
    pgIntegerScan n bs (.str s) =
      match goParseInt s bs with
      | .error e => (.error e, .integer 0 bs true)
      | .ok r => (.ok, .integer r bs true) := rfl

theorem pgIntegerScan_bytes (n : Int) (bs : Nat) (s : Bytes) :
    pgIntegerScan n bs (.bytes s) =
      match goParseInt s bs with
      | .error e => (.error e, .integer 0 bs true)
      | .ok r => (.ok, .integer r bs true) := rfl

theorem pgFloatScan_float64 (n : ℚ) (bs : Nat) (x : ℚ) :
    pgFloatScan n bs (.float64 x) =
      if bs = 32 ∧ maxFloat32Q < x then (.error .rangeError, .float n bs true)
      else (.ok, .float x bs true) := rfl

theorem pgFloatScan_str (n : ℚ) (bs : Nat) (s : Bytes) :
    pgFloatScan n bs (.str s) =
      match goParseFloat s with
      | .error e => (.error e, .float 0 bs true)
      | .ok x => (.ok, .float x bs true) := rfl

theorem pgFloatScan_bytes (n : ℚ) (bs : Nat) (s : Bytes) :
    pgFloatScan n bs (.bytes s) =
      match goParseFloat s with
      | .error e => (.error e, .float 0 bs true)
      | .ok x => (.ok, .float x bs true) := rfl

theorem pgBoolScan_str (b0 : Bool) (s : Bytes) :
    pgBoolScan b0 (.str s) =
      match s with
      | [] => (.panicked, .boolean false true)
      | c :: _ => (.ok, .boolean (decide (c = 't' ∨ c = '1')) true) := rfl

theorem pgBoolScan_bytes (b0 : Bool) (s : Bytes) :
    pgBoolScan b0 (.bytes s) =
      match s with
      | [] => (.panicked, .boolean false true)
      | c :: _ => (.ok, .boolean (decide (c = 't' ∨ c = '1')) true) := rfl

theorem pgTextScan_str (s0 : Bytes) (n : Nat) (p : Bool) (x : Bytes) :
    pgTextScan s0 n p (.str x) =
      (if p then
        if n < (trimRightSpaces x).length then
          (.error .lengthError, .text (trimRightSpaces x) n p true)
        else if (trimRightSpaces x).length < n then
          (.ok, .text (trimRightSpaces x ++
            List.replicate (n - (trimRightSpaces x).length) ' ') n p true)
        else (.ok, .text (trimRightSpaces x) n p true)
      else if 0 < n ∧ n < x.length then (.ok, .text (x.take n) n p true)
      else (.ok, .text x n p true)) := rfl

theorem pgTextScan_bytes (s0 : Bytes) (n : Nat) (p : Bool) (x : Bytes) :
    pgTextScan s0 n p (.bytes x) = pgTextScan s0 n p (.str x) := rfl

theorem pgEnumScan_str (s0 : Bytes) (ls : List Bytes) (x : Bytes) :
    pgEnumScan s0 ls (.str x) =
      if ls.any (· = x) then (.ok, .enum x ls true)
      else (.error .invalidEnumValue, .enum x ls true) := rfl

theorem pgEnumScan_bytes (s0 : Bytes) (ls : List Bytes) (x : Bytes) :
    pgEnumScan s0 ls (.bytes x) = pgEnumScan s0 ls (.str x) := rfl

theorem pgTimestampScan_str (t0 : GoTime) (s : Bytes) :
    pgTimestampScan t0 (.str s) =
      match parseTime s with
      | (.panicked, _) => (.panicked, .timestamp t0 true)
      | (o, t') => (o, .timestamp t' true) := rfl

theorem pgTimestampScan_bytes (t0 : GoTime) (s : Bytes) :
    pgTimestampScan t0 (.bytes s) = pgTimestampScan t0 (.str s) := rfl

/-! ### C10: the validity flag is set before parsing -/

/-- C10: for every scalar kind, `Scan` sets the validity flag before the
source is parsed and never rolls it back, so any non-nil source — even one
whose decode errors or panics — leaves `IsNull()` false; only the nil
source marks the value NULL. -/
theorem c10_valid_flag_set_before_parse :
    (∀ (n : Int) (bs : Nat) (src : Src), src.isNil = false →
      isNull (pgIntegerScan n bs src).2 = false) ∧
    (∀ (s : Bytes) (p sc : Int) (src : Src), src.isNil = false →
      isNull (pgNumericScan s p sc src).2 = false) ∧
    (∀ (q : ℚ) (bs : Nat) (src : Src), src.isNil = false →
      isNull (pgFloatScan q bs src).2 = false) ∧
    (∀ (b : Bool) (src : Src), src.isNil = false →
      isNull (pgBoolScan b src).2 = false) ∧
    (∀ (s : Bytes) (n : Nat) (p : Bool) (src : Src), src.isNil = false →
      isNull (pgTextScan s n p src).2 = false) ∧
    (∀ (b : Bytes) (src : Src), src.isNil = false →
      isNull (pgByteaScan b src).2 = false) ∧
    (∀ (s : Bytes) (ls : List Bytes) (src : Src), src.isNil = false →
      isNull (pgEnumScan s ls src).2 = false) ∧
    (∀ (t : GoTime) (src : Src), src.isNil = false →
      isNull (pgTimestampScan t src).2 = false) ∧
    (∀ (n : Int) (bs : Nat), isNull (pgIntegerScan n bs .nil).2 = true) ∧
    (∀ (s : Bytes) (p sc : Int), isNull (pgNumericScan s p sc .nil).2 = true) ∧
    (∀ (q : ℚ) (bs : Nat), isNull (pgFloatScan q bs .nil).2 = true) ∧
    (∀ (b : Bool), isNull (pgBoolScan b .nil).2 = true) ∧
    (∀ (s : Bytes) (n : Nat) (p : Bool), isNull (pgTextScan s n p .nil).2 = true) ∧
    (∀ (b : Bytes), isNull (pgByteaScan b .nil).2 = true) ∧
    (∀ (s : Bytes) (ls : List Bytes), isNull (pgEnumScan s ls .nil).2 = true) ∧
    (∀ (t : GoTime), isNull (pgTimestampScan t .nil).2 = true) := by
  refine ⟨?_, ?_, ?_, ?_, ?_, ?_, ?_, ?_, ?_, ?_, ?_, ?_, ?_, ?_, ?_, ?_⟩
  · intro n bs src h
    cases src
    case nil => exact Bool.noConfusion h
    case int v => rw [pgIntegerScan_int]; cases fitInt (Src.int v) bs <;> rfl
    case uint u => rw [pgIntegerScan_uint]; cases fitInt (Src.uint u) bs <;> rfl
    case str s => rw [pgIntegerScan_str]; cases goParseInt s bs <;> rfl
    case bytes s => rw [pgIntegerScan_bytes]; cases goParseInt s bs <;> rfl
    all_goals rfl
  · intro s p sc src h
    cases src
    case nil => exact Bool.noConfusion h
    all_goals rfl
  · intro q bs src h
    cases src
    case nil => exact Bool.noConfusion h
    case float64 x => rw [pgFloatScan_float64]; split <;> rfl
    case str s => rw [pgFloatScan_str]; cases goParseFloat s <;> rfl
    case bytes s => rw [pgFloatScan_bytes]; cases goParseFloat s <;> rfl
    all_goals rfl
  · intro b src h
    cases src
    case nil => exact Bool.noConfusion h
    case str s => rw [pgBoolScan_str]; cases s <;> rfl
    case bytes s => rw [pgBoolScan_bytes]; cases s <;> rfl
    all_goals rfl
  · intro s n p src h
    cases src
    case nil => exact Bool.noConfusion h
    case str x =>
      rw [pgTextScan_str]
      repeat' split
      all_goals rfl
    case bytes x =>
      rw [pgTextScan_bytes, pgTextScan_str]
      repeat' split
      all_goals rfl
    all_goals rfl
  · intro b src h
    cases src
    case nil => exact Bool.noConfusion h
    all_goals rfl
  · intro s ls src h
    cases src
    case nil => exact Bool.noConfusion h
    case str x => rw [pgEnumScan_str]; split <;> rfl
    case bytes x => rw [pgEnumScan_bytes, pgEnumScan_str]; split <;> rfl
    all_goals rfl
  · intro t src h
    cases src
    case nil => exact Bool.noConfusion h
    case str s =>
      rw [pgTimestampScan_str]
      rcases parseTime s with ⟨o, t'⟩
      cases o <;> rfl
    case bytes s =>
      rw [pgTimestampScan_bytes, pgTimestampScan_str]
      rcases parseTime s with ⟨o, t'⟩
      cases o <;> rfl
    all_goals rfl
  all_goals intros <;> rfl

/-- Witness for C10 at a concrete input. -/
theorem c10_valid_flag_witness :
    (Src.str []).isNil = false ∧
    isNull (pgIntegerScan 0 16 (.str [])).2 = false :=
  ⟨rfl, c10_valid_flag_set_before_parse.1 0 16 (.str []) rfl⟩

/-! ### C5 (amended): NULL encoding per kind and per container position -/

/-- C5 (amended): every NULL scalar and every NULL row/record/array encodes
directly to the bare `NULL` token, and a NULL row/record/array child of the
numeric/integer/float/bool kinds (plus timestamp in arrays) is rendered as
the bare token; but NULL children of the other kinds — text in particular,
and timestamp inside rows — are rendered as the quoted string `"NULL"`, and
an invalid key-value map encodes to empty bytes (its `bytes()` never
checks validity and decode resets the map). -/
theorem c5_null_encoding :
    (∀ (fuel : Nat) (n : Int) (bs : Nat),
      bytesValue fuel (.integer n bs false) = .ok nullb) ∧
    (∀ (fuel : Nat) (s : Bytes) (p sc : Int),
      bytesValue fuel (.numeric s p sc false) = .ok nullb) ∧
    (∀ (fuel : Nat) (q : ℚ) (bs : Nat),
      bytesValue fuel (.float q bs false) = .ok nullb) ∧
    (∀ (fuel : Nat) (b : Bool), bytesValue fuel (.boolean b false) = .ok nullb) ∧
    (∀ (fuel : Nat) (s : Bytes) (n : Nat) (p : Bool),
      bytesValue fuel (.text s n p false) = .ok nullb) ∧
    (∀ (fuel : Nat) (b : Bytes), bytesValue fuel (.bytea b false) = .ok nullb) ∧
    (∀ (fuel : Nat) (s : Bytes) (ls : List Bytes),
      bytesValue fuel (.enum s ls false) = .ok nullb) ∧
    (∀ (fuel : Nat) (t : GoTime), bytesValue fuel (.timestamp t false) = .ok nullb) ∧
    (∀ (fuel : Nat) (vs : List PgValue),
      bytesValue (fuel + 1) (.row vs false) = .ok nullb) ∧
    (∀ (fuel : Nat) (vs : List PgValue) (cols : List (Bytes × Kind)),
      bytesValue (fuel + 1) (.record vs cols false) = .ok nullb) ∧
    (∀ (fuel : Nat) (vs : List PgValue) (el : Kind),
      bytesValue (fuel + 1) (.array vs el false) = .ok nullb) ∧
    (∀ (fuel : Nat) (n : Int) (bs : Nat),
      bytesValue (fuel + 1) (.row [.integer n bs false] true) =
        .ok ('(' :: nullb ++ [')'])) ∧
    (∀ (fuel : Nat) (s : Bytes) (n : Nat) (p : Bool),
      bytesValue (fuel + 1) (.row [.text s n p false] true) =
        .ok ('(' :: quoteChar :: nullb ++ [quoteChar, ')'])) ∧
    (∀ (fuel : Nat) (t : GoTime),
      bytesValue (fuel + 1) (.row [.timestamp t false] true) =
        .ok ('(' :: quoteChar :: nullb ++ [quoteChar, ')'])) ∧
    (∀ (fuel : Nat) (n : Int) (bs : Nat),
      bytesValue (fuel + 1) (.array [.integer n bs false] .integer true) =
        .ok ('{' :: nullb ++ ['}'])) ∧
    (∀ (fuel : Nat) (t : GoTime),
      bytesValue (fuel + 1) (.array [.timestamp t false] .timestamp true) =
        .ok ('{' :: nullb ++ ['}'])) ∧
    (∀ (fuel : Nat) (s : Bytes) (n : Nat) (p : Bool),
      bytesValue (fuel + 1) (.array [.text s n p false] .text true) =
        .ok ('{' :: quoteChar :: nullb ++ [quoteChar, '}'])) ∧
    (∀ (fuel : Nat), bytesValue (fuel + 1) (.hstore [] false) = .ok []) := by
  refine ⟨?_, ?_, ?_, ?_, ?_, ?_, ?_, ?_, ?_, ?_, ?_, ?_, ?_, ?_, ?_, ?_, ?_, ?_⟩ <;>
    intro fuel <;> intros <;> cases fuel <;> rfl

/-! ### C6 (amended): boolean decode classification -/

/-- C6 (amended): boolean decode accepts native bools, Go `int` sources
(`true` exactly for `1`), and any non-empty string or byte-slice (`true`
exactly when the first byte is `t` or `1`, with no validation of other
text); an empty string or byte-slice panics on the index `x[0]`; sources of
any other modelled type fail with a type-mismatch error. -/
theorem c6_bool_scan_classification :
    (∀ (b0 : Bool) (c : Char) (cs : Bytes),
      pgBoolScan b0 (.str (c :: cs)) =
        (.ok, .boolean (decide (c = 't' ∨ c = '1')) true) ∧
      pgBoolScan b0 (.bytes (c :: cs)) =
        (.ok, .boolean (decide (c = 't' ∨ c = '1')) true)) ∧
    (∀ (b0 : Bool),
      pgBoolScan b0 (.str []) = (.panicked, .boolean false true) ∧
      pgBoolScan b0 (.bytes []) = (.panicked, .boolean false true)) ∧
    (∀ (b0 : Bool) (v : Int),
      pgBoolScan b0 (.int v) = (.ok, .boolean (decide (v = 1)) true)) ∧
    (∀ (b0 b : Bool), pgBoolScan b0 (.boolean b) = (.ok, .boolean b true)) ∧
    (∀ (b0 : Bool) (q : ℚ),
      pgBoolScan b0 (.float64 q) = (.error .typeMismatch, .boolean false true) ∧
      pgBoolScan b0 (.float32 q) = (.error .typeMismatch, .boolean false true)) ∧
    (∀ (b0 : Bool) (u : Nat),
      pgBoolScan b0 (.uint u) = (.error .typeMismatch, .boolean false true)) ∧
    (∀ (b0 : Bool) (t : GoTime),
      pgBoolScan b0 (.time t) = (.error .typeMismatch, .boolean false true)) ∧
    (∀ (b0 : Bool) (xs : List Src),
      pgBoolScan b0 (.list xs) = (.error .typeMismatch, .boolean false true)) ∧
    (∀ (b0 : Bool) (v : PgValue),
      pgBoolScan b0 (.value v) = (.error .typeMismatch, .boolean false true)) := by
  refine ⟨?_, ?_, ?_, ?_, ?_, ?_, ?_, ?_, ?_⟩ <;> intros <;>
    first | exact ⟨rfl, rfl⟩ | rfl

/-! ### C9 (amended): behavior on a missing name -/

/-- C9 (amended): on a record, a missing name is fully recoverable for
`ValueBy` (nil) and `Set` (a "No column" error), and fatal only for `Get`;
on a key-value map, `ValueBy` returns nil, but both `Get` and `Set` on a
missing name dereference that nil interface and panic — `Set` does not
return a recoverable error. -/
theorem c9_name_miss_behavior :
    (∀ (cs : List (Bytes × Kind)) (vs : List PgValue) (name : Bytes)
        (fuel : Nat) (src : Src),
      (∀ c ∈ cs, c.1 ≠ name) →
      recordValueBy cs vs name = none ∧
      recordSet fuel cs vs name src = .error .notFound ∧
      (recordGet cs vs name).1 = .panicked) ∧
    (∀ (m : List (Bytes × PgValue)) (name : Bytes) (fuel : Nat) (src : Src),
      (∀ kv ∈ m, kv.1 ≠ name) →
      hstoreValueBy m name = none ∧
      hstoreSet fuel m name src = .panicked ∧
      (hstoreGet m name).1 = .panicked) := by
  constructor
  · intro cs vs name fuel src h
    have hvb : recordValueBy cs vs name = none := by
      induction cs generalizing vs with
      | nil => cases vs <;> rfl
      | cons c cs ih =>
        cases vs with
        | nil => rfl
        | cons v vs =>
          have hc : c.1 ≠ name := h c (List.Mem.head _)
          show (if c.1 = name then some v else recordValueBy cs vs name) = none
          rw [if_neg hc]
          exact ih vs (fun c' hc' => h c' (List.Mem.tail _ hc'))
    exact ⟨hvb, by simp [recordSet, hvb], by simp [recordGet, hvb]⟩
  · intro m name fuel src h
    have hvb : hstoreValueBy m name = none := by
      induction m with
      | nil => rfl
      | cons kv m ih =>
        obtain ⟨k, v⟩ := kv
        have hc : k ≠ name := h (k, v) (List.Mem.head _)
        show (if k = name then some v else hstoreValueBy m name) = none
        rw [if_neg hc]
        exact ih (fun kv' h' => h kv' (List.Mem.tail _ h'))
    exact ⟨hvb, by simp [hstoreSet, hvb], by simp [hstoreGet, hvb]⟩

/-- Witness for C9 at concrete record and map values. -/
theorem c9_name_miss_witness :
    recordValueBy [(['a'], Kind.text)] [.text [] 0 false false] ['x'] = none ∧
    recordSet 1 [(['a'], Kind.text)] [.text [] 0 false false] ['x'] (.str ['b']) =
      .error .notFound ∧
    (recordGet [(['a'], Kind.text)] [.text [] 0 false false] ['x']).1 = .panicked ∧
    hstoreValueBy [(['a'], PgValue.text [] 0 false true)] ['x'] = none ∧
    hstoreSet 1 [(['a'], PgValue.text [] 0 false true)] ['x'] (.str ['b']) = .panicked ∧
    (hstoreGet [(['a'], PgValue.text [] 0 false true)] ['x']).1 = .panicked := by
  have h1 := c9_name_miss_behavior.1 [(['a'], Kind.text)] [.text [] 0 false false]
    ['x'] 1 (.str ['b']) (by decide)
  have h2 := c9_name_miss_behavior.2 [(['a'], PgValue.text [] 0 false true)]
    ['x'] 1 (.str ['b']) (by decide)
  exact ⟨h1.1, h1.2.1, h1.2.2, h2.1, h2.2.1, h2.2.2⟩


/-! ### C2 (amended): the end-of-input check fires only inside an element -/

/-- Splitting a run of the `split` loop: processing `k1 + k2` bytes is
processing `k1` bytes and then `k2` more from the resulting state. -/
theorem splitFold_add (s : Bytes) (st : SplitSt) (i k1 k2 : Nat) :
    splitFold s st i (k1 + k2) =
      match splitFold s st i k1 with
      | .error e => .error e
      | .ok st' => splitFold s st' (i + k1) k2 := by
  induction k1 generalizing st i with
  | zero => rw [Nat.zero_add]; rfl
  | succ k ih =>
    have hk : k + 1 + k2 = (k + k2) + 1 := by omega
    rw [hk]
    show (match splitStep s st i with
      | Except.error e => Except.error e
      | Except.ok st' => splitFold s st' (i + 1) (k + k2)) =
      (match (match splitStep s st i with
        | Except.error e => Except.error e
        | Except.ok st' => splitFold s st' (i + 1) k) with
        | Except.error e => Except.error e
        | Except.ok st'' => splitFold s st'' (i + (k + 1)) k2)
    cases splitStep s st i with
    | error e => rfl
    | ok st' =>
      show splitFold s st' (i + 1) (k + k2) =
        (match splitFold s st' (i + 1) k with
          | Except.error e => Except.error e
          | Except.ok st'' => splitFold s st'' (i + (k + 1)) k2)
      rw [ih]
      cases splitFold s st' (i + 1) k with
      | error e => rfl
      | ok st'' => rw [show i + 1 + k = i + (k + 1) from by omega]

/-- C2 (amended): the end-of-input delimiter check of `split` fires exactly
when the scanner is inside an element at the final byte — if the state
after all but the last byte has an open element (`a ≠ -1`) and the final
byte is not the `mode` closer, the call fails with the missing-delimiter
error.  (When the scanner is between elements at the final byte, the
`a == -1` case shadows the check and a missing closer is silently ignored,
as the counterexample `{1` shows.) -/
theorem c2_split_eof_check_inside_element (s : Bytes) (st : SplitSt)
    (hlen : 2 ≤ s.length)
    (hpre : splitFold s initSplitSt 0 (s.length - 1) = .ok st)
    (ha : st.a ≠ -1)
    (hlast : s.getD (s.length - 1) (Char.ofNat 0) ≠ st.mode) :
    split s = .error .missingCloser := by
  have h0 : s.length - 1 ≠ 0 := by omega
  have hstep : splitStep s st (s.length - 1) = .error .missingCloser := by
    simp only [splitStep]
    rw [if_neg h0, if_neg ha, if_pos trivial, if_pos hlast]
  have hdecomp : splitFold s initSplitSt 0 s.length =
      splitFold s st (0 + (s.length - 1)) 1 := by
    conv_lhs => rw [show s.length = (s.length - 1) + 1 from by omega]
    rw [splitFold_add, hpre]
  unfold split
  rw [hdecomp, Nat.zero_add]
  have h1 : splitFold s st (s.length - 1) 1 = .error .missingCloser := by
    show (match splitStep s st (s.length - 1) with
      | Except.error e => Except.error e
      | Except.ok st' => splitFold s st' (s.length - 1 + 1) 0) =
      Except.error GoError.missingCloser
    rw [hstep]
  rw [h1]


/-- Witness for C2 at the concrete input `{ab`: after the prefix `{a` the
scanner is inside an element (`a = 1`) and the final byte `b` differs from
the mode closer `}`, so `split` fails with the missing-delimiter error. -/
theorem c2_split_eof_check_witness :
    split (("\x7bab").toList) = .error .missingCloser :=
  c2_split_eof_check_inside_element (("\x7bab").toList)
    ⟨[], false, 0, '}', ',', 1, -1⟩ (by decide) rfl (by decide) (by decide)


/-! ### C1 (amended): round-trip stability for the scalar kinds that have it -/

/-- `natDecF` is fuel-independent once the fuel exceeds the argument. -/
theorem natDecF_stable : ∀ (f1 f2 n : Nat), n < f1 → n < f2 →
    natDecF f1 n = natDecF f2 n := by
  intro f1
  induction f1 with
  | zero => intro f2 n h1 _; exact absurd h1 (Nat.not_lt_zero n)
  | succ f ihf =>
    intro f2 n h1 h2
    cases f2 with
    | zero => exact absurd h2 (Nat.not_lt_zero n)
    | succ g =>
      show (if n < 10 then [digitChar n] else natDecF f (n / 10) ++ [digitChar (n % 10)]) =
        (if n < 10 then [digitChar n] else natDecF g (n / 10) ++ [digitChar (n % 10)])
      by_cases h : n < 10
      · rw [if_pos h, if_pos h]
      · rw [if_neg h, if_neg h]
        have hlt : n / 10 < n := Nat.div_lt_self (by omega) (by omega)
        rw [ihf g (n / 10) (by omega) (by omega)]

/-- The defining recurrence of `natDec`. -/
theorem natDec_unfold (n : Nat) :
    natDec n = if n < 10 then [digitChar n] else natDec (n / 10) ++ [digitChar (n % 10)] := by
  show (if n < 10 then [digitChar n] else natDecF n (n / 10) ++ [digitChar (n % 10)]) = _
  by_cases h : n < 10
  · rw [if_pos h, if_pos h]
  · rw [if_neg h, if_neg h]
    have hlt : n / 10 < n := Nat.div_lt_self (by omega) (by omega)
    rw [natDecF_stable n (n / 10 + 1) (n / 10) (by omega) (by omega)]
    rfl

/-- `digitChar` produces the ASCII digit with value `48 + d`. -/
theorem digitChar_toNat (d : Nat) (h : d < 10) : (digitChar d).toNat = 48 + d := by
  interval_cases d <;> rfl

/-- Decimal renderings start with an ASCII digit. -/
theorem natDec_head_digit (n : Nat) :
    ∃ c cs, natDec n = c :: cs ∧ 48 ≤ c.toNat ∧ c.toNat ≤ 57 := by
  induction n using Nat.strong_induction_on with
  | _ n ih =>
    rw [natDec_unfold]
    by_cases h : n < 10
    · rw [if_pos h]
      have hd := digitChar_toNat n h
      exact ⟨digitChar n, [], rfl, by omega, by omega⟩
    · rw [if_neg h]
      obtain ⟨c, cs, heq, hc1, hc2⟩ :=
        ih (n / 10) (Nat.div_lt_self (by omega) (by omega))
      exact ⟨c, cs ++ [digitChar (n % 10)], by rw [heq]; rfl, hc1, hc2⟩

/-- `parseDigits` distributes over append. -/
theorem parseDigits_append (a : Nat) (l1 l2 : Bytes) :
    parseDigits a (l1 ++ l2) =
      match parseDigits a l1 with
      | some b => parseDigits b l2
      | none => none := by
  induction l1 generalizing a with
  | nil => rfl
  | cons c cs ih =>
    by_cases hc : 48 ≤ c.toNat ∧ c.toNat ≤ 57
    · show (if 48 ≤ c.toNat ∧ c.toNat ≤ 57 then
          parseDigits (a * 10 + (c.toNat - 48)) (cs ++ l2) else none) = _
      rw [if_pos hc, ih]
      show _ = (match (if 48 ≤ c.toNat ∧ c.toNat ≤ 57 then
          parseDigits (a * 10 + (c.toNat - 48)) cs else none) with
        | some b => parseDigits b l2
        | none => none)
      rw [if_pos hc]
    · show (if 48 ≤ c.toNat ∧ c.toNat ≤ 57 then
          parseDigits (a * 10 + (c.toNat - 48)) (cs ++ l2) else none) = _
      rw [if_neg hc]
      show _ = (match (if 48 ≤ c.toNat ∧ c.toNat ≤ 57 then
          parseDigits (a * 10 + (c.toNat - 48)) cs else none) with
        | some b => parseDigits b l2
        | none => none)
      rw [if_neg hc]

/-- Parsing the decimal rendering recovers the value (with accumulator). -/
theorem parseDigits_natDec (n : Nat) : ∀ a,
    parseDigits a (natDec n) = some (a * 10 ^ (natDec n).length + n) := by
  induction n using Nat.strong_induction_on with
  | _ n ih =>
    intro a
    rw [natDec_unfold]
    by_cases h : n < 10
    · rw [if_pos h]
      have hd := digitChar_toNat n h
      show (if 48 ≤ (digitChar n).toNat ∧ (digitChar n).toNat ≤ 57 then
          parseDigits (a * 10 + ((digitChar n).toNat - 48)) [] else none) = _
      rw [hd, if_pos ⟨by omega, by omega⟩]
      show some (a * 10 + (48 + n - 48)) = some (a * 10 ^ ([digitChar n]).length + n)
      rw [List.length_singleton, pow_one]
      congr 1
      omega
    · rw [if_neg h]
      rw [parseDigits_append]
      have h10 : n / 10 < n := Nat.div_lt_self (by omega) (by omega)
      rw [ih (n / 10) h10 a]
      have hd := digitChar_toNat (n % 10) (Nat.mod_lt _ (by omega))
      show (if 48 ≤ (digitChar (n % 10)).toNat ∧ (digitChar (n % 10)).toNat ≤ 57 then
          parseDigits ((a * 10 ^ (natDec (n / 10)).length + n / 10) * 10 +
            ((digitChar (n % 10)).toNat - 48)) [] else none) = _
      rw [hd, if_pos ⟨by omega, by omega⟩]
      show some ((a * 10 ^ (natDec (n / 10)).length + n / 10) * 10 + (48 + n % 10 - 48)) =
        some (a * 10 ^ (natDec (n / 10) ++ [digitChar (n % 10)]).length + n)
      rw [List.length_append, List.length_singleton]
      congr 1
      have hsub : 48 + n % 10 - 48 = n % 10 := by omega
      rw [hsub]
      have hm := Nat.div_add_mod n 10
      calc (a * 10 ^ (natDec (n / 10)).length + n / 10) * 10 + n % 10
          = a * (10 ^ (natDec (n / 10)).length * 10) + (10 * (n / 10) + n % 10) := by ring
        _ = a * 10 ^ ((natDec (n / 10)).length + 1) + n := by rw [hm, pow_succ]

/-- Parsing the decimal rendering recovers the value. -/
theorem parseDigits_natDec0 (n : Nat) : parseDigits 0 (natDec n) = some n := by
  rw [parseDigits_natDec n 0]
  congr 1
  simp

/-- `goParseIntCore` inverts the decimal rendering of an in-range value. -/
theorem goParseIntCore_natDec (neg : Bool) (n : Nat) (bs : Nat)
    (h : -(2 ^ (bs - 1) : Int) ≤ (if neg then -(n : Int) else (n : Int)) ∧
        (if neg then -(n : Int) else (n : Int)) ≤ (2 ^ (bs - 1) : Int) - 1) :
    goParseIntCore neg (natDec n) bs =
      .ok (if neg then -(n : Int) else (n : Int)) := by
  obtain ⟨c, cs, heq, hc1, hc2⟩ := natDec_head_digit n
  rw [heq]
  show (match parseDigits 0 (c :: cs) with
    | none => Except.error GoError.parseError
    | some m =>
      if -(2 ^ (bs - 1) : Int) ≤ (if neg then -(m : Int) else (m : Int)) ∧
          (if neg then -(m : Int) else (m : Int)) ≤ (2 ^ (bs - 1) : Int) - 1 then
        Except.ok (if neg then -(m : Int) else (m : Int))
      else Except.error GoError.rangeError) = _
  rw [← heq, parseDigits_natDec0 n]
  exact if_pos h

/-- `strconv.ParseInt` inverts `fmt.Sprintf("%d", ·)` on every value inside
the declared signed range. -/
theorem goParseInt_intDec (v : Int) (bs : Nat)
    (hlo : -(2 ^ (bs - 1) : Int) ≤ v) (hhi : v ≤ (2 ^ (bs - 1) : Int) - 1) :
    goParseInt (intDec v) bs = .ok v := by
  by_cases hv : v < 0
  · have hi : intDec v = '-' :: natDec v.natAbs := by rw [intDec, if_pos hv]
    rw [hi]
    have hval : -((v.natAbs : Int)) = v := by omega
    rw [← hval] at hlo hhi
    have hcore := goParseIntCore_natDec true v.natAbs bs ⟨hlo, hhi⟩
    rw [hval] at hcore
    exact hcore
  · have hi : intDec v = natDec v.natAbs := by rw [intDec, if_neg hv]
    rw [hi]
    obtain ⟨c, cs, heq, hc1, hc2⟩ := natDec_head_digit v.natAbs
    rw [heq]
    have hcm : c ≠ '-' := by
      intro hcontra
      rw [hcontra] at hc1
      exact absurd hc1 (by decide)
    have hcp : c ≠ '+' := by
      intro hcontra
      rw [hcontra] at hc1
      exact absurd hc1 (by decide)
    show (if c = '-' then goParseIntCore true cs bs
      else if c = '+' then goParseIntCore false cs bs
      else goParseIntCore false (c :: cs) bs) = Except.ok v
    rw [if_neg hcm, if_neg hcp, ← heq]
    have hval : ((v.natAbs : Int)) = v := by omega
    rw [← hval] at hlo hhi
    have hcore := goParseIntCore_natDec false v.natAbs bs ⟨hlo, hhi⟩
    rw [hval] at hcore
    exact hcore


/-- C1 (amended): the round trip `decode ∘ encode ∘ decode = decode` holds
for the Integer kind (on every in-range native value its decode accepts),
and for the Boolean, Text, Enum and Numeric kinds; it fails for the
Timestamp and Bytea kinds as the counterexample shows (the Double kind's
encode goes through 32-bit float rendering, whose rounding this embedding
does not model, so it is not asserted here). -/
theorem c1_roundtrip_for_scalar_kinds :
    (∀ (bs : Nat) (v : Int) (fuel : Nat),
      bs = 16 ∨ bs = 32 ∨ bs = 64 →
      -(2 ^ (bs - 1) : Int) ≤ v → v ≤ (2 ^ (bs - 1) : Int) - 1 →
      (pgIntegerScan 0 bs (.int v)).1 = .ok →
      pgIntegerScan 0 bs (.int v) = (.ok, .integer v bs true) ∧
      bytesValue fuel (.integer v bs true) = .ok (intDec v) ∧
      pgIntegerScan 0 bs (.bytes (intDec v)) = (.ok, .integer v bs true)) ∧
    (∀ (b0 b : Bool) (fuel : Nat),
      pgBoolScan b0 (.boolean b) = (.ok, .boolean b true) ∧
      bytesValue fuel (.boolean b true) = .ok (if b then ['t'] else ['f']) ∧
      pgBoolScan b0 (.bytes (if b then ['t'] else ['f'])) = (.ok, .boolean b true)) ∧
    (∀ (s : Bytes) (fuel : Nat),
      pgTextScan [] 0 false (.str s) = (.ok, .text s 0 false true) ∧
      bytesValue fuel (.text s 0 false true) = .ok s ∧
      pgTextScan [] 0 false (.bytes s) = (.ok, .text s 0 false true)) ∧
    (∀ (ls : List Bytes) (s : Bytes) (fuel : Nat), ls.any (· = s) = true →
      pgEnumScan [] ls (.str s) = (.ok, .enum s ls true) ∧
      bytesValue fuel (.enum s ls true) = .ok s ∧
      pgEnumScan [] ls (.bytes s) = (.ok, .enum s ls true)) ∧
    (∀ (s : Bytes) (p sc : Int) (fuel : Nat),
      pgNumericScan [] p sc (.str s) = (.ok, .numeric s p sc true) ∧
      bytesValue fuel (.numeric s p sc true) = .ok s ∧
      pgNumericScan [] p sc (.bytes s) = (.ok, .numeric s p sc true)) := by
  refine ⟨?_, ?_, ?_, ?_, ?_⟩
  · intro bs v fuel hbs hlo hhi hok
    have hfit : fitInt (.int v) bs = .ok v := by
      rcases hbs with h | h | h <;> subst h
      · show (if v < 32767 then Except.ok v else Except.error GoError.rangeError) = _
        by_cases hv : v < 32767
        · rw [if_pos hv]
        · exfalso
          rw [pgIntegerScan_int] at hok
          have he : fitInt (Src.int v) 16 = .error .rangeError := by
            show (if v < 32767 then Except.ok v else Except.error GoError.rangeError) = _
            rw [if_neg hv]
          rw [he] at hok
          exact Outcome.noConfusion hok
      · show (if v < 2147483647 then Except.ok v else Except.error GoError.rangeError) = _
        by_cases hv : v < 2147483647
        · rw [if_pos hv]
        · exfalso
          rw [pgIntegerScan_int] at hok
          have he : fitInt (Src.int v) 32 = .error .rangeError := by
            show (if v < 2147483647 then Except.ok v else Except.error GoError.rangeError) = _
            rw [if_neg hv]
          rw [he] at hok
          exact Outcome.noConfusion hok
      · rfl
    refine ⟨?_, ?_, ?_⟩
    · rw [pgIntegerScan_int, hfit]
    · cases fuel <;> rfl
    · rw [pgIntegerScan_bytes, goParseInt_intDec v bs hlo hhi]
  · intro b0 b fuel
    refine ⟨rfl, ?_, ?_⟩
    · cases fuel <;> rfl
    · cases b <;> rfl
  · intro s fuel
    refine ⟨rfl, ?_, rfl⟩
    cases fuel <;> rfl
  · intro ls s fuel h
    refine ⟨?_, ?_, ?_⟩
    · rw [pgEnumScan_str, if_pos h]
    · cases fuel <;> rfl
    · rw [pgEnumScan_bytes, pgEnumScan_str, if_pos h]
  · intro s p sc fuel
    refine ⟨rfl, ?_, rfl⟩
    cases fuel <;> rfl

/-- Witness for C1 at concrete inputs: the 16-bit integer 5 and the enum
label `a` round-trip through their encoded bytes. -/
theorem c1_roundtrip_witness :
    pgIntegerScan 0 16 (.bytes (intDec 5)) = (.ok, .integer 5 16 true) ∧
    pgEnumScan [] [['a']] (.bytes ['a']) = (.ok, .enum ['a'] [['a']] true) := by
  have h1 := c1_roundtrip_for_scalar_kinds.1 16 5 1 (Or.inl rfl)
    (by decide) (by decide) rfl
  have h2 := c1_roundtrip_for_scalar_kinds.2.2.2.1 [['a']] ['a'] 1 rfl
  exact ⟨h1.2.2, h2.2.2⟩

end Pqutil
